import Mathlib

/-!
Shallow embedding of the basic-agent repository's core: the provider
retry wrapper (`src/basic_agent/provider.py`, `_retryable_chat`) and the
agent run loop (`src/basic_agent/agent.py`, `Agent.run` together with
`Agent._update_memory`, `Agent._build_assistant_content`,
`Agent._build_tool_result` on the anthropic content format, and the
registry lookup from `src/basic_agent/tools.py`).

Conventions of the embedding:
* tool-call argument dictionaries (`Dict[str, Any]`) are a type parameter `α`;
  a structured-output pydantic instance is `β`; a memory record is `γ`.
* Python code that can raise is modelled with `Except`: a tool body is
  `α → Except String String` (error text or `str(result)`), pydantic
  `model_validate` is `α → Except String _`.
* the provider is a stub indexed by the number of `chat` calls already
  made, `Nat → Except String (ProviderResponse α)`; an `Except.error`
  models `provider.chat` raising (after its internal retries).
* observable side effects of a run (each `chat` invocation with the
  messages/tool names/tool choice it was given, each executed registered
  tool, each `memory.put`) are collected in a `RunTrace`, alongside the
  value Python actually returns (`RunOutput`) and the loop's
  `total_input_tokens` / `total_output_tokens` accumulator variables.
  Tracing spans and system-prompt strings are pure observability /
  templating collaborators that no verified claim touches; they are elided.
-/

namespace BasicAgent

/-- Token usage information (provider.py `Usage`). -/
structure Usage where
  input_tokens : Nat
  output_tokens : Nat
  deriving Repr, DecidableEq

/-- A normalized tool call from the LLM response (provider.py `ToolCall`). -/
structure ToolCall (α : Type) where
  id : String
  name : String
  input : α
  deriving Repr, DecidableEq

/-- Normalized response from any provider (provider.py `ProviderResponse`;
the `raw` field is provider-native and unused by the anthropic run-loop paths). -/
structure ProviderResponse (α : Type) where
  text : Option String
  tool_calls : List (ToolCall α)
  usage : Usage
  deriving Repr, DecidableEq

/-! ## The retry wrapper (`_retryable_chat`) -/

/-- Outcome of one underlying `call_fn()` invocation, as the wrapper's
`try/except` classifies it: a returned value, an `APIConnectionError`,
an `APIStatusError` with its status code, or any other exception (which
the wrapper does not catch). -/
inductive CallOutcome (ρ : Type) where
  | success (r : ρ)
  | connError
  | statusError (code : Nat)
  | otherError (msg : String)
  deriving Repr, DecidableEq

/-- An exception as re-raised by the wrapper. -/
inductive RetryExc where
  | connError
  | statusError (code : Nat)
  | otherError (msg : String)
  deriving Repr, DecidableEq

/-- provider.py `_RETRYABLE_STATUS_CODES`. -/
def RETRYABLE_STATUS_CODES : List Nat := [429, 500, 502, 503, 504]

/-- Whether an attempt's outcome is caught and retried by the wrapper. -/
def CallOutcome.isRetryableFailure {ρ : Type} : CallOutcome ρ → Bool
  | .success _ => false
  | .connError => true
  | .statusError c => RETRYABLE_STATUS_CODES.contains c
  | .otherError _ => false

/-- The exception carried by a failing outcome (`none` for a success). -/
def CallOutcome.toExc {ρ : Type} : CallOutcome ρ → Option RetryExc
  | .success _ => none
  | .connError => some .connError
  | .statusError c => some (.statusError c)
  | .otherError m => some (.otherError m)

/-- What `_retryable_chat` does when an attempt's outcome ends the loop at
that attempt: return the value, or propagate the exception. -/
def CallOutcome.toResult {ρ : Type} : CallOutcome ρ → Except (Option RetryExc) ρ
  | .success r => .ok r
  | o => .error o.toExc

/-- Result of the wrapper together with its observable behaviour: how many
times `call_fn` ran and the `time.sleep` durations, in seconds, in order.
The error `none` models Python `raise last_exc` with `last_exc = None`
(only reachable with `max_retries = 0`). -/
structure RetryResult (ρ : Type) where
  result : Except (Option RetryExc) ρ
  attempts : Nat
  sleeps : List Nat
  deriving Repr

/-- The `for attempt in range(max_retries)` body of `_retryable_chat`,
over the list of remaining loop indices (`range(max_retries)` at the
top). A success returns immediately; a non-retryable status error or any
other exception re-raises immediately; a retryable failure is remembered
as `last_exc` and, when another attempt remains
(`attempt < max_retries - 1`), is preceded by `time.sleep(2 ** attempt)`;
an exhausted loop re-raises `last_exc`. -/
def retryLoop {ρ : Type} (call_fn : Nat → CallOutcome ρ) (max_retries : Nat) :
    List Nat → Option RetryExc → RetryResult ρ
  | [], last => ⟨.error last, 0, []⟩
  | attempt :: rest, _ =>
    match call_fn attempt with
    | .success r => ⟨.ok r, 1, []⟩
    | .connError =>
      let sleeps := if attempt < max_retries - 1 then [2 ^ attempt] else []
      let next := retryLoop call_fn max_retries rest (some .connError)
      ⟨next.result, next.attempts + 1, sleeps ++ next.sleeps⟩
    | .statusError c =>
      if RETRYABLE_STATUS_CODES.contains c then
        let sleeps := if attempt < max_retries - 1 then [2 ^ attempt] else []
        let next := retryLoop call_fn max_retries rest (some (.statusError c))
        ⟨next.result, next.attempts + 1, sleeps ++ next.sleeps⟩
      else
        ⟨.error (some (.statusError c)), 1, []⟩
    | .otherError m => ⟨.error (some (.otherError m)), 1, []⟩

/-- provider.py `_retryable_chat(call_fn, max_retries)`: run the attempt
loop over `range(max_retries)` with no exception recorded yet. -/
def retryable_chat {ρ : Type} (call_fn : Nat → CallOutcome ρ) (max_retries : Nat) :
    RetryResult ρ :=
  retryLoop call_fn max_retries (List.range max_retries) none

/-! ## The run loop data model (`agent.py`, anthropic content format) -/

/-- A block of an anthropic-format message body: `_build_assistant_content`
produces `text` and `tool_use` blocks, `_build_tool_result` produces
`tool_result` blocks. -/
inductive ContentBlock (α : Type) where
  | text (s : String)
  | tool_use (id name : String) (input : α)
  | tool_result (tool_use_id : String) (content : String)
  deriving Repr, DecidableEq

/-- A message body: a plain string (the initial user message, and the
condensed messages of the memory-update call) or a block list. -/
inductive MsgContent (α : Type) where
  | str (s : String)
  | blocks (bs : List (ContentBlock α))
  deriving Repr, DecidableEq

/-- One entry of the `messages` list `Agent.run` maintains. -/
structure Message (α : Type) where
  role : String
  content : MsgContent α
  deriving Repr, DecidableEq

/-- A registered tool (tools.py `ToolDefinition`): `execute` models
`str(self.func(**kwargs))`, with `Except.error e` for the body raising an
exception whose text is `e`. -/
structure ToolDefinition (α : Type) where
  execute : α → Except String String

/-- tools.py `ToolRegistry._tools`: a name-keyed association list
(Python dict keys are unique; lookup takes the first match). -/
def ToolRegistry (α : Type) := List (String × ToolDefinition α)

/-- `ToolRegistry.get(name)` / `dict.get`. -/
def registryGet {α : Type} (reg : ToolRegistry α) (name : String) :
    Option (ToolDefinition α) :=
  (reg.find? (fun p => p.1 == name)).map (fun p => p.2)

/-- The structured-output contract held by the agent when `output_type`
is configured: `name` is `self._output_model.__name__`, `validate` is
`parse_structured_output` = pydantic `model_validate` (may raise). -/
structure OutputModel (α β : Type) where
  name : String
  validate : α → Except String β

/-- The memory collaborator's schema as `_update_memory` uses it:
`schemaName` is `memory_schema.__name__`, `validate` is
`memory_schema.model_validate` (may raise). -/
structure MemorySchema (α γ : Type) where
  schemaName : String
  validate : α → Except String γ

/-- The agent's construction-time configuration relevant to `run`:
the tool registry, the optional structured-output model, the optional
memory collaborator, `max_iterations`, and the Python `str()` rendering
of a tool-call argument dict (used as the memory-update call's final
assistant text, `str(tc.input)`). -/
structure AgentConfig (α β γ : Type) where
  registry : ToolRegistry α
  output : Option (OutputModel α β)
  memory : Option (MemorySchema α γ)
  max_iterations : Nat
  toStr : α → String

/-- A provider stub: the response (or raised exception, post-retry) of
the i-th `provider.chat` invocation of a run, counted across the main
loop and the memory-update sub-call. -/
def Provider (α : Type) := Nat → Except String (ProviderResponse α)

/-- The value `Agent.run` returns to the caller: the plain text string,
or the validated structured-output instance. -/
inductive RunOutput (β : Type) where
  | text (s : String)
  | structured (b : β)
  deriving Repr, DecidableEq

/-- An exception propagating out of `Agent.run`. -/
inductive RunError where
  | valueError (msg : String)
  | providerError (msg : String)
  | validationError (msg : String)
  | nameError
  deriving Repr, DecidableEq

/-- One `provider.chat` invocation as the run made it: the `messages`
argument, the names of the tool schemas passed, the `tool_choice`
argument, and the usage carried by the response it got back. -/
structure ChatCall (α : Type) where
  messages : List (Message α)
  toolNames : List String
  tool_choice : Option String
  usage : Usage
  deriving Repr, DecidableEq

/-- What a completed `run` returns plus its observable effects: `output`
is the Python return value; `total_input_tokens` / `total_output_tokens`
are the loop's accumulator variables at the return point; `mainCalls`
are the main-loop `chat` invocations in order, `memoryCalls` the
memory-update sub-call (empty or a singleton); `memoryWrites` the
`memory.put` effects; `toolExecutions` the registered-tool executions
(`record_tool_call` points), in order. -/
structure RunTrace (α β γ : Type) where
  output : RunOutput β
  total_input_tokens : Nat
  total_output_tokens : Nat
  mainCalls : List (ChatCall α)
  memoryCalls : List (ChatCall α)
  memoryWrites : List (String × γ)
  toolExecutions : List (String × α)
  deriving Repr, DecidableEq

/-! ## The run loop functions -/

/-- Python `response.text or ""`: `None` and `""` both give `""`. -/
def textOr (t : Option String) : String := t.getD ""

/-- agent.py line 174 condition `self._output_model and tc.name ==
self._output_model.__name__`. -/
def matchesOutput {α β γ : Type} (cfg : AgentConfig α β γ) (tc : ToolCall α) : Bool :=
  match cfg.output with
  | some om => tc.name == om.name
  | none => false

/-- The structured-output branch's test and validation in one step:
`some (om.validate tc.input)` when the call names the output model,
`none` when the branch is not taken. -/
def outputCheck {α β γ : Type} (cfg : AgentConfig α β γ) (tc : ToolCall α) :
    Option (Except String β) :=
  match cfg.output with
  | some om => if tc.name == om.name then some (om.validate tc.input) else none
  | none => none

/-- agent.py lines 183-192: the `result_str` for one non-output tool
call — registry lookup, unknown-tool message, execution with the
exception folded into an error message. -/
def execStr {α β γ : Type} (cfg : AgentConfig α β γ) (tc : ToolCall α) : String :=
  match registryGet cfg.registry tc.name with
  | none => "Error: Unknown tool '" ++ tc.name ++ "'"
  | some td =>
    match td.execute tc.input with
    | .ok r => r
    | .error e => "Error executing tool '" ++ tc.name ++ "': " ++ e

/-- The `record_tool_call` observation for one tool call: the call is
dispatched (and so observed) exactly when the registry knows its name. -/
def execEntries {α β γ : Type} (cfg : AgentConfig α β γ) (tc : ToolCall α) :
    List (String × α) :=
  match registryGet cfg.registry tc.name with
  | none => []
  | some _ => [(tc.name, tc.input)]

/-- How the per-round tool-call loop (agent.py lines 172-197) ends: an
early return with a validated structured output (carrying `str`-source
input and the executions made before the match), or the ordered
`tool_results_content` list with all executions. -/
inductive RoundOutcome (α β : Type) where
  | structuredDone (parsed : β) (input : α) (execs : List (String × α))
  | results (blocks : List (ContentBlock α)) (execs : List (String × α))

/-- agent.py lines 170-197: iterate over `response.tool_calls` in order.
A call naming the output model validates and returns immediately
(validation failure propagates); any other call produces one
`tool_result` block via `execStr`. -/
def processToolCalls {α β γ : Type} (cfg : AgentConfig α β γ) :
    List (ToolCall α) → Except RunError (RoundOutcome α β)
  | [] => .ok (.results [] [])
  | tc :: rest =>
    match outputCheck cfg tc with
    | some (.error m) => .error (.validationError m)
    | some (.ok parsed) => .ok (.structuredDone parsed tc.input [])
    | none =>
      match processToolCalls cfg rest with
      | .error e => .error e
      | .ok (.structuredDone b inp execs) =>
        .ok (.structuredDone b inp (execEntries cfg tc ++ execs))
      | .ok (.results blocks execs) =>
        .ok (.results (ContentBlock.tool_result tc.id (execStr cfg tc) :: blocks)
          (execEntries cfg tc ++ execs))

/-- agent.py `_build_assistant_content`, anthropic branch: an optional
text block (only when `response.text` is truthy, so not for `None` and
not for `""`) followed by one `tool_use` block per tool call. -/
def build_assistant_content {α : Type} (r : ProviderResponse α) : List (ContentBlock α) :=
  (match r.text with
   | some t => if t == "" then [] else [ContentBlock.text t]
   | none => []) ++
  r.tool_calls.map (fun tc => ContentBlock.tool_use tc.id tc.name tc.input)

/-- agent.py line 126-131: the tool schema list is every registered
tool's schema plus, when configured, the synthetic output tool schema. -/
def toolNames {α β γ : Type} (cfg : AgentConfig α β γ) : List String :=
  cfg.registry.map (fun p => p.1) ++
    (match cfg.output with | some om => [om.name] | none => [])

/-- agent.py line 144: `tool_choice=tool_choice if tool_schemas else None`. -/
def effectiveChoice {α β γ : Type} (cfg : AgentConfig α β γ)
    (tool_choice : Option String) : Option String :=
  if (toolNames cfg).isEmpty then none else tool_choice

/-- agent.py lines 275-287: the condensed conversation of the
memory-update call — only string-content messages, then the final
assistant response when non-empty (Python truthiness), then the fixed
instruction message. -/
def updateMessages {α : Type} (messages : List (Message α))
    (assistant_response : String) : List (Message α) :=
  messages.filter (fun m => match m.content with | .str _ => true | .blocks _ => false) ++
    (if assistant_response == "" then []
     else [⟨"assistant", .str assistant_response⟩]) ++
    [⟨"user", .str "Please update the memory based on this conversation."⟩]

/-- agent.py `_update_memory` (lines 237-304) guarded by the call-site
condition `memory_id is not None and memory_update and self._memory is
not None` (lines 161, 178, 209): one further `chat` call with
tool choice forced to the memory schema's name; the first tool call
naming the schema is validated (a validation exception propagates) and
written via `memory.put`; no matching tool call means no write and no
error. The response's usage is read nowhere. Returns the logged call
and the writes. -/
def maybeUpdateMemory {α β γ : Type} (cfg : AgentConfig α β γ) (provider : Provider α)
    (callIdx : Nat) (messages : List (Message α)) (memory_id : Option String)
    (memory_update : Bool) (assistant_response : String) :
    Except RunError (List (ChatCall α) × List (String × γ)) :=
  match memory_id, cfg.memory with
  | some mid, some mem =>
    if memory_update then
      match provider callIdx with
      | .error e => .error (.providerError e)
      | .ok response =>
        let call : ChatCall α :=
          ⟨updateMessages messages assistant_response, [mem.schemaName],
            some mem.schemaName, response.usage⟩
        match response.tool_calls.find? (fun tc => tc.name == mem.schemaName) with
        | none => .ok ([call], [])
        | some tc =>
          match mem.validate tc.input with
          | .error m => .error (.validationError m)
          | .ok data => .ok ([call], [(mid, data)])
    else .ok ([], [])
  | _, _ => .ok ([], [])

/-- agent.py line 203-204: after processing a round's tool calls, a
truthy `tool_choice` other than `"auto"` becomes `"auto"`. -/
def nextChoice (tool_choice : Option String) : Option String :=
  if (match tool_choice with | some s => s != "" && s != "auto" | none => false)
  then some "auto" else tool_choice

/-- agent.py lines 140-211, the `for _ in range(self._max_iterations)`
loop. `fuel` is the number of iterations left, `callIdx` the number of
`chat` calls already made, `lastResponse` the Python local `response`
from the previous iteration (`none` before the first — reading it then
is a `NameError`). Each iteration: call the provider (a raise
propagates), accumulate usage, and either finish with the response text
(no tool calls), finish with a validated structured output (early
return), or append the assistant and tool-result messages and loop with
the tool choice relaxed. Exhausted fuel returns the last observed text. -/
def runLoop {α β γ : Type} (cfg : AgentConfig α β γ) (provider : Provider α)
    (memory_id : Option String) (memory_update : Bool) :
    Nat → List (Message α) → Option String → Nat → Nat → Nat →
    List (ChatCall α) → List (String × α) → Option (ProviderResponse α) →
    Except RunError (RunTrace α β γ)
  | 0, messages, _, callIdx, totalIn, totalOut, callLog, execLog, lastResponse =>
    match lastResponse with
    | none => .error .nameError
    | some response =>
      let main_result := textOr response.text
      match maybeUpdateMemory cfg provider callIdx messages memory_id memory_update
          main_result with
      | .error e => .error e
      | .ok (mcalls, writes) =>
        .ok ⟨.text main_result, totalIn, totalOut, callLog, mcalls, writes, execLog⟩
  | fuel + 1, messages, tool_choice, callIdx, totalIn, totalOut, callLog, execLog, _ =>
    match provider callIdx with
    | .error e => .error (.providerError e)
    | .ok response =>
      let totalIn := totalIn + response.usage.input_tokens
      let totalOut := totalOut + response.usage.output_tokens
      let call : ChatCall α :=
        ⟨messages, toolNames cfg, effectiveChoice cfg tool_choice, response.usage⟩
      let callLog := callLog ++ [call]
      if response.tool_calls.isEmpty then
        let main_result := textOr response.text
        match maybeUpdateMemory cfg provider (callIdx + 1) messages memory_id
            memory_update main_result with
        | .error e => .error e
        | .ok (mcalls, writes) =>
          .ok ⟨.text main_result, totalIn, totalOut, callLog, mcalls, writes, execLog⟩
      else
        let messages := messages ++
          [⟨"assistant", .blocks (build_assistant_content response)⟩]
        match processToolCalls cfg response.tool_calls with
        | .error e => .error e
        | .ok (.structuredDone parsed inp execs) =>
          match maybeUpdateMemory cfg provider (callIdx + 1) messages memory_id
              memory_update (cfg.toStr inp) with
          | .error e => .error e
          | .ok (mcalls, writes) =>
            .ok ⟨.structured parsed, totalIn, totalOut, callLog, mcalls, writes,
              execLog ++ execs⟩
        | .ok (.results blocks execs) =>
          let messages := messages ++ [⟨"user", .blocks blocks⟩]
          runLoop cfg provider memory_id memory_update fuel messages
            (nextChoice tool_choice) (callIdx + 1) totalIn totalOut callLog
            (execLog ++ execs) (some response)

/-- agent.py `Agent.run` (lines 82-211): fail fast when a memory scope is
given without a memory collaborator; otherwise run the loop from the
single user message, with the tool choice initially forced to the output
model's name exactly when an output schema is configured. -/
def run {α β γ : Type} (cfg : AgentConfig α β γ) (provider : Provider α)
    (message : String) (memory_id : Option String) (memory_update : Bool) :
    Except RunError (RunTrace α β γ) :=
  if memory_id.isSome && cfg.memory.isNone then
    .error (.valueError
      "memory_id was provided but no Memory instance is configured on this Agent.")
  else
    runLoop cfg provider memory_id memory_update cfg.max_iterations
      [⟨"user", .str message⟩] (cfg.output.map (fun om => om.name)) 0 0 0 [] [] none

/-! ## Theorems: the retry wrapper (claim C2) -/

/-- Unfolding lemma: an attempt whose outcome the wrapper does not retry
(a success, a non-retryable status error, or any other exception) ends
the loop at that attempt with no sleep. -/
theorem retryLoop_stop {ρ : Type} (f : Nat → CallOutcome ρ) (m a : Nat)
    (rest : List Nat) (last : Option RetryExc)
    (h : (f a).isRetryableFailure = false) :
    retryLoop f m (a :: rest) last = ⟨(f a).toResult, 1, []⟩ := by
  cases hf : f a with
  | success r => simp [retryLoop, hf, CallOutcome.toResult]
  | connError => rw [hf] at h; simp [CallOutcome.isRetryableFailure] at h
  | statusError c =>
    rw [hf] at h
    simp [CallOutcome.isRetryableFailure] at h
    simp [retryLoop, hf, h, CallOutcome.toResult, CallOutcome.toExc]
  | otherError msg => simp [retryLoop, hf, CallOutcome.toResult, CallOutcome.toExc]

/-- Unfolding lemma: a retryable failure records itself as `last_exc`,
sleeps `2 ^ attempt` when a further attempt remains, and continues. -/
theorem retryLoop_step {ρ : Type} (f : Nat → CallOutcome ρ) (m a : Nat)
    (rest : List Nat) (last : Option RetryExc)
    (h : (f a).isRetryableFailure = true) :
    retryLoop f m (a :: rest) last =
      ⟨(retryLoop f m rest ((f a).toExc)).result,
        (retryLoop f m rest ((f a).toExc)).attempts + 1,
        (if a < m - 1 then [2 ^ a] else []) ++
          (retryLoop f m rest ((f a).toExc)).sleeps⟩ := by
  cases hf : f a with
  | success r => rw [hf] at h; simp [CallOutcome.isRetryableFailure] at h
  | connError => simp [retryLoop, hf, CallOutcome.toExc]
  | statusError c =>
    rw [hf] at h
    simp [CallOutcome.isRetryableFailure] at h
    simp [retryLoop, hf, h, CallOutcome.toExc]
  | otherError msg => rw [hf] at h; simp [CallOutcome.isRetryableFailure] at h

/-- C2: for every logical provider call, `_retryable_chat` attempts the
underlying request at most 3 times; every attempt that is followed by
another failed with a connection error or a status error whose code is
in {429, 500, 502, 503, 504}; the sleeps between successive attempts
follow the fixed schedule 1s, 2s, 4s (the realized sleeps are the first
`attempts - 1` entries of that schedule; with 3 attempts at most two
inter-attempt gaps occur, so the 4s entry is never reached); the first
attempt whose outcome is not a retryable failure ends the loop
immediately — a success returns its value, any other error propagates
without consuming a retry; and when all attempts fail retryably, the
last observed error propagates. -/
theorem C2_retry_policy {ρ : Type} (f : Nat → CallOutcome ρ) :
    (retryable_chat f 3).attempts ≤ 3 ∧
    (retryable_chat f 3).sleeps =
      List.take ((retryable_chat f 3).attempts - 1) [1, 2, 4] ∧
    (∀ i, i + 1 < (retryable_chat f 3).attempts → (f i).isRetryableFailure = true) ∧
    (∀ i, i < 3 → (∀ j, j < i → (f j).isRetryableFailure = true) →
      (f i).isRetryableFailure = false →
      (retryable_chat f 3).attempts = i + 1 ∧
      (retryable_chat f 3).result = (f i).toResult) ∧
    ((∀ j, j < 3 → (f j).isRetryableFailure = true) →
      (retryable_chat f 3).attempts = 3 ∧
      (retryable_chat f 3).result = .error ((f 2).toExc)) := by
  have hrange : List.range 3 = [0, 1, 2] := rfl
  unfold retryable_chat
  rw [hrange]
  cases h0 : (f 0).isRetryableFailure with
  | false =>
    rw [retryLoop_stop f 3 0 _ _ h0]
    refine ⟨by norm_num, by simp, ?_, ?_, ?_⟩
    · intro i hi; simp at hi
    · intro i hi hall hni
      have hi0 : i = 0 := by
        by_contra hne
        have := hall 0 (by omega)
        rw [h0] at this; exact absurd this (by simp)
      subst hi0; exact ⟨rfl, rfl⟩
    · intro hall
      have := hall 0 (by norm_num)
      rw [h0] at this; exact absurd this (by simp)
  | true =>
    rw [retryLoop_step f 3 0 _ _ h0]
    cases h1 : (f 1).isRetryableFailure with
    | false =>
      rw [retryLoop_stop f 3 1 _ _ h1]
      refine ⟨by norm_num, by norm_num, ?_, ?_, ?_⟩
      · intro i hi
        have hb : i + 1 < 2 := hi
        have hz : i = 0 := by omega
        subst hz; exact h0
      · intro i hi hall hni
        have hi1 : i = 1 := by
          interval_cases i
          · rw [h0] at hni; exact absurd hni (by simp)
          · rfl
          · have := hall 1 (by omega)
            rw [h1] at this; exact absurd this (by simp)
        subst hi1; exact ⟨rfl, rfl⟩
      · intro hall
        have := hall 1 (by norm_num)
        rw [h1] at this; exact absurd this (by simp)
    | true =>
      rw [retryLoop_step f 3 1 _ _ h1]
      cases h2 : (f 2).isRetryableFailure with
      | false =>
        rw [retryLoop_stop f 3 2 _ _ h2]
        refine ⟨by norm_num, by norm_num, ?_, ?_, ?_⟩
        · intro i hi
          have hb : i + 1 < 3 := hi
          have hb2 : i < 2 := by omega
          interval_cases i
          · exact h0
          · exact h1
        · intro i hi hall hni
          have hi2 : i = 2 := by
            interval_cases i
            · rw [h0] at hni; exact absurd hni (by simp)
            · rw [h1] at hni; exact absurd hni (by simp)
            · rfl
          subst hi2; exact ⟨rfl, rfl⟩
        · intro hall
          have := hall 2 (by norm_num)
          rw [h2] at this; exact absurd this (by simp)
      | true =>
        rw [retryLoop_step f 3 2 _ _ h2]
        have hnil : retryLoop f 3 [] ((f 2).toExc) =
            ⟨.error ((f 2).toExc), 0, []⟩ := rfl
        rw [hnil]
        refine ⟨by norm_num, by norm_num, ?_, ?_, ?_⟩
        · intro i hi
          have hb : i + 1 < 3 := hi
          have hb2 : i < 2 := by omega
          interval_cases i
          · exact h0
          · exact h1
        · intro i hi hall hni
          interval_cases i
          · rw [h0] at hni; exact absurd hni (by simp)
          · rw [h1] at hni; exact absurd hni (by simp)
          · rw [h2] at hni; exact absurd hni (by simp)
        · intro hall; exact ⟨rfl, rfl⟩

/-- A provider stub for the C2 witness: a 503 status error twice, then a
success — the spec's "retry then succeed" scenario. -/
def retryStubW : Nat → CallOutcome Nat :=
  fun i => if i < 2 then .statusError 503 else .success 7

/-- Witness for C2: on the stub that fails twice with 503 then succeeds,
the wrapper makes exactly 3 attempts, returns the success value, and
slept 1s then 2s between attempts. -/
theorem C2_retry_policy_witness :
    (retryable_chat retryStubW 3).attempts = 3 ∧
    (retryable_chat retryStubW 3).result = Except.ok 7 ∧
    (retryable_chat retryStubW 3).sleeps = [1, 2] := by
  have h := C2_retry_policy retryStubW
  have h4 := h.2.2.2.1 2 (by norm_num) (by decide) (by decide)
  refine ⟨h4.1, ?_, ?_⟩
  · rw [h4.2]; rfl
  · rw [h.2.1, h4.1]; rfl

/-! ## Helper lemmas about one round of the loop -/

section RunLemmas

variable {α β γ : Type} {cfg : AgentConfig α β γ} {provider : Provider α}
variable {mid : Option String} {mu : Bool} {n : Nat} {messages : List (Message α)}
variable {tc : Option String} {callIdx tIn tOut : Nat} {clog : List (ChatCall α)}
variable {elog : List (String × α)} {last : Option (ProviderResponse α)}
variable {r : ProviderResponse α}

theorem outputCheck_none (cfg : AgentConfig α β γ) (t : ToolCall α)
    (h : matchesOutput cfg t = false) : outputCheck cfg t = none := by
  unfold matchesOutput at h
  unfold outputCheck
  cases ho : cfg.output with
  | none => rfl
  | some om => rw [ho] at h; simp at h; simp [h]

/-- The ordered `tool_results_content` a round builds from its requests. -/
def resultBlocks (cfg : AgentConfig α β γ) (tcs : List (ToolCall α)) :
    List (ContentBlock α) :=
  tcs.map (fun t => ContentBlock.tool_result t.id (execStr cfg t))

/-- The registered-tool executions a list of requests produces, in order. -/
def execsOf (cfg : AgentConfig α β γ) (tcs : List (ToolCall α)) :
    List (String × α) :=
  (tcs.map (execEntries cfg)).flatten

theorem processToolCalls_results (cfg : AgentConfig α β γ)
    (tcs : List (ToolCall α)) (h : ∀ t ∈ tcs, matchesOutput cfg t = false) :
    processToolCalls cfg tcs =
      .ok (.results (resultBlocks cfg tcs) (execsOf cfg tcs)) := by
  induction tcs with
  | nil => simp [processToolCalls, resultBlocks, execsOf]
  | cons t rest ih =>
    have ht := outputCheck_none cfg t (h t (by simp))
    have hrest : ∀ x ∈ rest, matchesOutput cfg x = false := by
      intro x hx; exact h x (by simp [hx])
    rw [processToolCalls, ht, ih hrest]
    simp [resultBlocks, execsOf]

theorem processToolCalls_structured (cfg : AgentConfig α β γ) {om : OutputModel α β}
    (pre : List (ToolCall α)) (c : ToolCall α) (post : List (ToolCall α)) {b : β}
    (hout : cfg.output = some om)
    (hpre : ∀ t ∈ pre, matchesOutput cfg t = false)
    (hc : c.name = om.name) (hv : om.validate c.input = .ok b) :
    processToolCalls cfg (pre ++ c :: post) =
      .ok (.structuredDone b c.input (execsOf cfg pre)) := by
  induction pre with
  | nil =>
    have hchk : outputCheck cfg c = some (.ok b) := by
      unfold outputCheck
      rw [hout]
      simp [hc, hv]
    rw [List.nil_append, processToolCalls, hchk]
    simp [execsOf]
  | cons t rest ih =>
    have ht := outputCheck_none cfg t (hpre t (by simp))
    have hrest : ∀ x ∈ rest, matchesOutput cfg x = false := by
      intro x hx; exact hpre x (by simp [hx])
    rw [List.cons_append, processToolCalls, ht, ih hrest]
    simp [execsOf]

theorem processToolCalls_invalid (cfg : AgentConfig α β γ) {om : OutputModel α β}
    (pre : List (ToolCall α)) (c : ToolCall α) (post : List (ToolCall α)) {m : String}
    (hout : cfg.output = some om)
    (hpre : ∀ t ∈ pre, matchesOutput cfg t = false)
    (hc : c.name = om.name) (hv : om.validate c.input = .error m) :
    processToolCalls cfg (pre ++ c :: post) = .error (.validationError m) := by
  induction pre with
  | nil =>
    have hchk : outputCheck cfg c = some (.error m) := by
      unfold outputCheck
      rw [hout]
      simp [hc, hv]
    rw [List.nil_append, processToolCalls, hchk]
  | cons t rest ih =>
    have ht := outputCheck_none cfg t (hpre t (by simp))
    have hrest : ∀ x ∈ rest, matchesOutput cfg x = false := by
      intro x hx; exact hpre x (by simp [hx])
    rw [List.cons_append, processToolCalls, ht, ih hrest]

theorem maybeUpdateMemory_none_id (cfg : AgentConfig α β γ) (provider : Provider α)
    (callIdx : Nat) (messages : List (Message α)) (mu : Bool) (s : String) :
    maybeUpdateMemory cfg provider callIdx messages none mu s = .ok ([], []) := by
  unfold maybeUpdateMemory
  cases cfg.memory <;> rfl

theorem maybeUpdateMemory_some {mem : MemorySchema α γ} (ci : Nat)
    (msgs : List (Message α)) (mid s : String)
    (hmem : cfg.memory = some mem) :
    maybeUpdateMemory cfg provider ci msgs (some mid) true s =
      (match provider ci with
       | .error e => .error (.providerError e)
       | .ok response =>
         match response.tool_calls.find? (fun t => t.name == mem.schemaName) with
         | none => .ok ([⟨updateMessages msgs s, [mem.schemaName],
             some mem.schemaName, response.usage⟩], [])
         | some t =>
           match mem.validate t.input with
           | .error m => .error (.validationError m)
           | .ok d => .ok ([⟨updateMessages msgs s, [mem.schemaName],
               some mem.schemaName, response.usage⟩], [(mid, d)])) := by
  unfold maybeUpdateMemory
  rw [hmem]
  simp

theorem runLoop_succ_err {e : String}
    (hp : provider callIdx = .error e) :
    runLoop cfg provider mid mu (n + 1) messages tc callIdx tIn tOut clog elog last =
      .error (.providerError e) := by
  rw [runLoop, hp]

theorem runLoop_succ_empty
    (hp : provider callIdx = .ok r) (he : r.tool_calls = []) :
    runLoop cfg provider mid mu (n + 1) messages tc callIdx tIn tOut clog elog last =
      (match maybeUpdateMemory cfg provider (callIdx + 1) messages mid mu
          (textOr r.text) with
       | .error e => .error e
       | .ok (mcalls, writes) =>
         .ok ⟨.text (textOr r.text), tIn + r.usage.input_tokens,
           tOut + r.usage.output_tokens,
           clog ++ [⟨messages, toolNames cfg, effectiveChoice cfg tc, r.usage⟩],
           mcalls, writes, elog⟩) := by
  rw [runLoop, hp]
  simp [he]

theorem runLoop_succ_results {blocks : List (ContentBlock α)} {execs : List (String × α)}
    (hp : provider callIdx = .ok r) (hne : r.tool_calls ≠ [])
    (hproc : processToolCalls cfg r.tool_calls = .ok (.results blocks execs)) :
    runLoop cfg provider mid mu (n + 1) messages tc callIdx tIn tOut clog elog last =
      runLoop cfg provider mid mu n
        (messages ++ [⟨"assistant", .blocks (build_assistant_content r)⟩,
          ⟨"user", .blocks blocks⟩])
        (nextChoice tc) (callIdx + 1) (tIn + r.usage.input_tokens)
        (tOut + r.usage.output_tokens)
        (clog ++ [⟨messages, toolNames cfg, effectiveChoice cfg tc, r.usage⟩])
        (elog ++ execs) (some r) := by
  rw [runLoop, hp]
  have hie : r.tool_calls.isEmpty = false := by
    cases hc : r.tool_calls with
    | nil => exact absurd hc hne
    | cons a as => rfl
  simp [hie, hproc]

theorem runLoop_succ_structured {b : β} {inp : α} {execs : List (String × α)}
    (hp : provider callIdx = .ok r) (hne : r.tool_calls ≠ [])
    (hproc : processToolCalls cfg r.tool_calls = .ok (.structuredDone b inp execs)) :
    runLoop cfg provider mid mu (n + 1) messages tc callIdx tIn tOut clog elog last =
      (match maybeUpdateMemory cfg provider (callIdx + 1)
          (messages ++ [⟨"assistant", .blocks (build_assistant_content r)⟩]) mid mu
          (cfg.toStr inp) with
       | .error e => .error e
       | .ok (mcalls, writes) =>
         .ok ⟨.structured b, tIn + r.usage.input_tokens, tOut + r.usage.output_tokens,
           clog ++ [⟨messages, toolNames cfg, effectiveChoice cfg tc, r.usage⟩],
           mcalls, writes, elog ++ execs⟩) := by
  rw [runLoop, hp]
  have hie : r.tool_calls.isEmpty = false := by
    cases hc : r.tool_calls with
    | nil => exact absurd hc hne
    | cons a as => rfl
  simp [hie, hproc]

theorem runLoop_succ_proc_err {e : RunError}
    (hp : provider callIdx = .ok r) (hne : r.tool_calls ≠ [])
    (hproc : processToolCalls cfg r.tool_calls = .error e) :
    runLoop cfg provider mid mu (n + 1) messages tc callIdx tIn tOut clog elog last =
      .error e := by
  rw [runLoop, hp]
  have hie : r.tool_calls.isEmpty = false := by
    cases hc : r.tool_calls with
    | nil => exact absurd hc hne
    | cons a as => rfl
  simp [hie, hproc]

theorem runLoop_zero :
    runLoop cfg provider mid mu 0 messages tc callIdx tIn tOut clog elog (some r) =
      (match maybeUpdateMemory cfg provider callIdx messages mid mu
          (textOr r.text) with
       | .error e => .error e
       | .ok (mcalls, writes) =>
         .ok ⟨.text (textOr r.text), tIn, tOut, clog, mcalls, writes, elog⟩) := by
  rw [runLoop]

end RunLemmas

section UnfoldLemmas

variable {α β γ : Type} {cfg : AgentConfig α β γ} {provider : Provider α}
variable {mid : Option String} {mu : Bool} {fuel : Nat} {messages : List (Message α)}
variable {tc : Option String} {callIdx tIn tOut : Nat} {clog : List (ChatCall α)}
variable {elog : List (String × α)} {last : Option (ProviderResponse α)}
variable {r : ProviderResponse α}

theorem runLoop_unfold_results {blocks : List (ContentBlock α)}
    {execs : List (String × α)} (n : Nat) (hf : fuel = n + 1)
    (hp : provider callIdx = .ok r) (hne : r.tool_calls ≠ [])
    (hproc : processToolCalls cfg r.tool_calls = .ok (.results blocks execs)) :
    runLoop cfg provider mid mu fuel messages tc callIdx tIn tOut clog elog last =
      runLoop cfg provider mid mu n
        (messages ++ [⟨"assistant", .blocks (build_assistant_content r)⟩,
          ⟨"user", .blocks blocks⟩])
        (nextChoice tc) (callIdx + 1) (tIn + r.usage.input_tokens)
        (tOut + r.usage.output_tokens)
        (clog ++ [⟨messages, toolNames cfg, effectiveChoice cfg tc, r.usage⟩])
        (elog ++ execs) (some r) := by
  rw [hf]
  exact runLoop_succ_results hp hne hproc

theorem runLoop_unfold_empty (n : Nat) (hf : fuel = n + 1)
    (hp : provider callIdx = .ok r) (he : r.tool_calls = []) :
    runLoop cfg provider mid mu fuel messages tc callIdx tIn tOut clog elog last =
      (match maybeUpdateMemory cfg provider (callIdx + 1) messages mid mu
          (textOr r.text) with
       | .error e => .error e
       | .ok (mcalls, writes) =>
         .ok ⟨.text (textOr r.text), tIn + r.usage.input_tokens,
           tOut + r.usage.output_tokens,
           clog ++ [⟨messages, toolNames cfg, effectiveChoice cfg tc, r.usage⟩],
           mcalls, writes, elog⟩) := by
  rw [hf]
  exact runLoop_succ_empty hp he

theorem runLoop_unfold_structured {b : β} {inp : α} {execs : List (String × α)}
    (n : Nat) (hf : fuel = n + 1)
    (hp : provider callIdx = .ok r) (hne : r.tool_calls ≠ [])
    (hproc : processToolCalls cfg r.tool_calls = .ok (.structuredDone b inp execs)) :
    runLoop cfg provider mid mu fuel messages tc callIdx tIn tOut clog elog last =
      (match maybeUpdateMemory cfg provider (callIdx + 1)
          (messages ++ [⟨"assistant", .blocks (build_assistant_content r)⟩]) mid mu
          (cfg.toStr inp) with
       | .error e => .error e
       | .ok (mcalls, writes) =>
         .ok ⟨.structured b, tIn + r.usage.input_tokens, tOut + r.usage.output_tokens,
           clog ++ [⟨messages, toolNames cfg, effectiveChoice cfg tc, r.usage⟩],
           mcalls, writes, elog ++ execs⟩) := by
  rw [hf]
  exact runLoop_succ_structured hp hne hproc

theorem runLoop_unfold_invalid {e : RunError} (n : Nat) (hf : fuel = n + 1)
    (hp : provider callIdx = .ok r) (hne : r.tool_calls ≠ [])
    (hproc : processToolCalls cfg r.tool_calls = .error e) :
    runLoop cfg provider mid mu fuel messages tc callIdx tIn tOut clog elog last =
      .error e := by
  rw [hf]
  exact runLoop_succ_proc_err hp hne hproc

end UnfoldLemmas

/-! ## Loop invariants -/

/-- A provider response that keeps the loop going: at least one tool-call
request, every request for a registered tool that does not name the
output model. -/
def goodRound {α β γ : Type} (cfg : AgentConfig α β γ) (r : ProviderResponse α) : Prop :=
  r.tool_calls ≠ [] ∧
    ∀ t ∈ r.tool_calls, matchesOutput cfg t = false ∧
      (registryGet cfg.registry t.name).isSome = true

instance {α β γ : Type} [DecidableEq α] (cfg : AgentConfig α β γ)
    (r : ProviderResponse α) : Decidable (goodRound cfg r) := by
  unfold goodRound
  infer_instance

theorem runLoop_goodRounds {α β γ : Type} (cfg : AgentConfig α β γ)
    (provider : Provider α) (resp : Nat → ProviderResponse α) (mu : Bool) :
    ∀ (n callIdx : Nat) (messages : List (Message α)) (tc : Option String)
      (tIn tOut : Nat) (clog : List (ChatCall α)) (elog : List (String × α))
      (last : Option (ProviderResponse α)),
      (∀ i, i < n + 1 → provider (callIdx + i) = .ok (resp (callIdx + i))) →
      (∀ i, i < n + 1 → goodRound cfg (resp (callIdx + i))) →
      ∃ trace,
        runLoop cfg provider none mu (n + 1) messages tc callIdx tIn tOut clog elog last
          = .ok trace ∧
        trace.mainCalls.length = clog.length + (n + 1) ∧
        trace.memoryCalls = [] ∧ trace.memoryWrites = [] ∧
        trace.output = .text (textOr (resp (callIdx + n)).text) := by
  intro n
  induction n with
  | zero =>
    intro callIdx messages tc tIn tOut clog elog last hp hg
    have hp0 := hp 0 (by norm_num)
    have hg0 := hg 0 (by norm_num)
    rw [Nat.add_zero] at hp0 hg0
    have hproc := processToolCalls_results cfg (resp callIdx).tool_calls
      (fun t ht => (hg0.2 t ht).1)
    rw [runLoop_succ_results hp0 hg0.1 hproc, runLoop_zero, maybeUpdateMemory_none_id]
    refine ⟨_, rfl, ?_, rfl, rfl, rfl⟩
    simp
  | succ n ih =>
    intro callIdx messages tc tIn tOut clog elog last hp hg
    have hp0 := hp 0 (by norm_num)
    have hg0 := hg 0 (by norm_num)
    rw [Nat.add_zero] at hp0 hg0
    have hproc := processToolCalls_results cfg (resp callIdx).tool_calls
      (fun t ht => (hg0.2 t ht).1)
    rw [runLoop_succ_results hp0 hg0.1 hproc]
    have hidx : ∀ i : Nat, callIdx + 1 + i = callIdx + (i + 1) := by omega
    have hp' : ∀ i, i < n + 1 →
        provider (callIdx + 1 + i) = .ok (resp (callIdx + 1 + i)) := by
      intro i hi
      rw [hidx i]
      exact hp (i + 1) (by omega)
    have hg' : ∀ i, i < n + 1 → goodRound cfg (resp (callIdx + 1 + i)) := by
      intro i hi
      rw [hidx i]
      exact hg (i + 1) (by omega)
    obtain ⟨trace, h1, h2, h3, h4, h5⟩ := ih (callIdx + 1) _ _ _ _ _ _ _ hp' hg'
    refine ⟨trace, h1, ?_, h3, h4, ?_⟩
    · rw [h2]; simp; omega
    · rw [h5, hidx n]

theorem runLoop_usage {α β γ : Type} (cfg : AgentConfig α β γ) (provider : Provider α)
    (mid : Option String) (mu : Bool) :
    ∀ (n : Nat) (messages : List (Message α)) (tc : Option String)
      (callIdx tIn tOut : Nat) (clog : List (ChatCall α)) (elog : List (String × α))
      (last : Option (ProviderResponse α)) (trace : RunTrace α β γ),
      runLoop cfg provider mid mu n messages tc callIdx tIn tOut clog elog last
        = .ok trace →
      tIn = (clog.map (fun c => c.usage.input_tokens)).sum →
      tOut = (clog.map (fun c => c.usage.output_tokens)).sum →
      trace.total_input_tokens =
        (trace.mainCalls.map (fun c => c.usage.input_tokens)).sum ∧
      trace.total_output_tokens =
        (trace.mainCalls.map (fun c => c.usage.output_tokens)).sum := by
  intro n
  induction n with
  | zero =>
    intro messages tc callIdx tIn tOut clog elog last trace h hIn hOut
    cases last with
    | none => rw [runLoop] at h; exact absurd h (by simp)
    | some r =>
      rw [runLoop_zero] at h
      rcases hmm : maybeUpdateMemory cfg provider callIdx messages mid mu
          (textOr r.text) with e | p
      · rw [hmm] at h; exact absurd h (by simp)
      · rw [hmm] at h
        obtain ⟨mcalls, writes⟩ := p
        simp only [Except.ok.injEq] at h
        subst h
        exact ⟨hIn, hOut⟩
  | succ n ih =>
    intro messages tc callIdx tIn tOut clog elog last trace h hIn hOut
    rcases hp : provider callIdx with e | r
    · rw [runLoop_succ_err hp] at h; exact absurd h (by simp)
    · cases hcalls : r.tool_calls with
      | nil =>
        rw [runLoop_succ_empty hp hcalls] at h
        rcases hmm : maybeUpdateMemory cfg provider (callIdx + 1) messages mid mu
            (textOr r.text) with e | p
        · rw [hmm] at h; exact absurd h (by simp)
        · rw [hmm] at h
          obtain ⟨mcalls, writes⟩ := p
          simp only [Except.ok.injEq] at h
          subst h
          constructor
          · simp [hIn]
          · simp [hOut]
      | cons t ts =>
        have hne : r.tool_calls ≠ [] := by rw [hcalls]; simp
        rcases hproc : processToolCalls cfg r.tool_calls with e | out
        · rw [runLoop_succ_proc_err hp hne hproc] at h
          exact absurd h (by simp)
        · cases out with
          | structuredDone b inp execs =>
            rw [runLoop_succ_structured hp hne hproc] at h
            rcases hmm : maybeUpdateMemory cfg provider (callIdx + 1)
                (messages ++ [⟨"assistant", .blocks (build_assistant_content r)⟩])
                mid mu (cfg.toStr inp) with e | p
            · rw [hmm] at h; exact absurd h (by simp)
            · rw [hmm] at h
              obtain ⟨mcalls, writes⟩ := p
              simp only [Except.ok.injEq] at h
              subst h
              constructor
              · simp [hIn]
              · simp [hOut]
          | results blocks execs =>
            rw [runLoop_succ_results hp hne hproc] at h
            refine ih _ _ _ _ _ _ _ _ _ h ?_ ?_
            · simp [hIn]
            · simp [hOut]

section ChoiceLemmas

variable {α β γ : Type} {cfg : AgentConfig α β γ} {provider : Provider α}
variable {mid : Option String} {mu : Bool}

theorem toolNames_ne {om : OutputModel α β} (hout : cfg.output = some om) :
    (toolNames cfg).isEmpty = false := by
  unfold toolNames
  rw [hout]
  simp

theorem effectiveChoice_of_output {om : OutputModel α β} (tc : Option String)
    (hout : cfg.output = some om) : effectiveChoice cfg tc = tc := by
  unfold effectiveChoice
  rw [toolNames_ne hout]
  simp

theorem nextChoice_auto : nextChoice (some "auto") = some "auto" := by
  unfold nextChoice
  simp

theorem nextChoice_ne {s : String} (h : s ≠ "") : nextChoice (some s) = some "auto" := by
  unfold nextChoice
  by_cases ha : s = "auto"
  · subst ha; simp
  · have h1 : (s != "") = true := by simp [h]
    have h2 : (s != "auto") = true := by simp [ha]
    simp [h1, h2]

theorem runLoop_auto {om : OutputModel α β} (hout : cfg.output = some om) :
    ∀ (n : Nat) (messages : List (Message α)) (callIdx tIn tOut : Nat)
      (clog : List (ChatCall α)) (elog : List (String × α))
      (last : Option (ProviderResponse α)) (trace : RunTrace α β γ),
      runLoop cfg provider mid mu n messages (some "auto") callIdx tIn tOut clog
        elog last = .ok trace →
      ∃ suffix, trace.mainCalls = clog ++ suffix ∧
        ∀ c ∈ suffix, c.tool_choice = some "auto" := by
  intro n
  induction n with
  | zero =>
    intro messages callIdx tIn tOut clog elog last trace h
    cases last with
    | none => rw [runLoop] at h; exact absurd h (by simp)
    | some r =>
      rw [runLoop_zero] at h
      rcases hmm : maybeUpdateMemory cfg provider callIdx messages mid mu
          (textOr r.text) with e | p
      · rw [hmm] at h; exact absurd h (by simp)
      · rw [hmm] at h
        obtain ⟨mcalls, writes⟩ := p
        simp only [Except.ok.injEq] at h
        subst h
        exact ⟨[], by simp, by simp⟩
  | succ n ih =>
    intro messages callIdx tIn tOut clog elog last trace h
    rcases hp : provider callIdx with e | r
    · rw [runLoop_succ_err hp] at h; exact absurd h (by simp)
    · cases hcalls : r.tool_calls with
      | nil =>
        rw [runLoop_succ_empty hp hcalls] at h
        rcases hmm : maybeUpdateMemory cfg provider (callIdx + 1) messages mid mu
            (textOr r.text) with e | p
        · rw [hmm] at h; exact absurd h (by simp)
        · rw [hmm] at h
          obtain ⟨mcalls, writes⟩ := p
          simp only [Except.ok.injEq] at h
          subst h
          refine ⟨[⟨messages, toolNames cfg, effectiveChoice cfg (some "auto"),
            r.usage⟩], by simp, ?_⟩
          intro c hc
          simp at hc
          subst hc
          exact effectiveChoice_of_output (some "auto") hout
      | cons t ts =>
        have hne : r.tool_calls ≠ [] := by rw [hcalls]; simp
        rcases hproc : processToolCalls cfg r.tool_calls with e | out
        · rw [runLoop_succ_proc_err hp hne hproc] at h
          exact absurd h (by simp)
        · cases out with
          | structuredDone b inp execs =>
            rw [runLoop_succ_structured hp hne hproc] at h
            rcases hmm : maybeUpdateMemory cfg provider (callIdx + 1)
                (messages ++ [⟨"assistant", .blocks (build_assistant_content r)⟩])
                mid mu (cfg.toStr inp) with e | p
            · rw [hmm] at h; exact absurd h (by simp)
            · rw [hmm] at h
              obtain ⟨mcalls, writes⟩ := p
              simp only [Except.ok.injEq] at h
              subst h
              refine ⟨[⟨messages, toolNames cfg, effectiveChoice cfg (some "auto"),
                r.usage⟩], by simp, ?_⟩
              intro c hc
              simp at hc
              subst hc
              exact effectiveChoice_of_output (some "auto") hout
          | results blocks execs =>
            rw [runLoop_succ_results hp hne hproc, nextChoice_auto] at h
            obtain ⟨suffix, h1, h2⟩ := ih _ _ _ _ _ _ _ _ h
            refine ⟨⟨messages, toolNames cfg, effectiveChoice cfg (some "auto"),
              r.usage⟩ :: suffix, by simp [h1], ?_⟩
            intro c hc
            rcases List.mem_cons.mp hc with rfl | hc2
            · exact effectiveChoice_of_output (some "auto") hout
            · exact h2 c hc2

end ChoiceLemmas

theorem matchesOutput_of_none {α β γ : Type} {cfg : AgentConfig α β γ}
    (hout : cfg.output = none) (t : ToolCall α) : matchesOutput cfg t = false := by
  unfold matchesOutput
  rw [hout]

theorem runLoop_text {α β γ : Type} {cfg : AgentConfig α β γ} {provider : Provider α}
    {mid : Option String} {mu : Bool} (hout : cfg.output = none) :
    ∀ (n : Nat) (messages : List (Message α)) (tc : Option String)
      (callIdx tIn tOut : Nat) (clog : List (ChatCall α)) (elog : List (String × α))
      (last : Option (ProviderResponse α)) (trace : RunTrace α β γ),
      runLoop cfg provider mid mu n messages tc callIdx tIn tOut clog elog last
        = .ok trace →
      ∃ s, trace.output = .text s := by
  intro n
  induction n with
  | zero =>
    intro messages tc callIdx tIn tOut clog elog last trace h
    cases last with
    | none => rw [runLoop] at h; exact absurd h (by simp)
    | some r =>
      rw [runLoop_zero] at h
      rcases hmm : maybeUpdateMemory cfg provider callIdx messages mid mu
          (textOr r.text) with e | p
      · rw [hmm] at h; exact absurd h (by simp)
      · rw [hmm] at h
        obtain ⟨mcalls, writes⟩ := p
        simp only [Except.ok.injEq] at h
        subst h
        exact ⟨_, rfl⟩
  | succ n ih =>
    intro messages tc callIdx tIn tOut clog elog last trace h
    rcases hp : provider callIdx with e | r
    · rw [runLoop_succ_err hp] at h; exact absurd h (by simp)
    · cases hcalls : r.tool_calls with
      | nil =>
        rw [runLoop_succ_empty hp hcalls] at h
        rcases hmm : maybeUpdateMemory cfg provider (callIdx + 1) messages mid mu
            (textOr r.text) with e | p
        · rw [hmm] at h; exact absurd h (by simp)
        · rw [hmm] at h
          obtain ⟨mcalls, writes⟩ := p
          simp only [Except.ok.injEq] at h
          subst h
          exact ⟨_, rfl⟩
      | cons t ts =>
        have hne : r.tool_calls ≠ [] := by rw [hcalls]; simp
        have hproc := processToolCalls_results cfg r.tool_calls
          (fun t ht => matchesOutput_of_none hout t)
        rw [runLoop_succ_results hp hne hproc] at h
        exact ih _ _ _ _ _ _ _ _ _ h

/-! ## Claim theorems -/

/-- C1: for every `maxIterations = N >= 1` and every provider stub whose
responses all carry tool-call requests for registered, non-output tools,
`run` (without a memory scope) makes exactly N provider chat calls,
terminates without raising, and returns the text observed in the last
provider response — the empty string when that response carried no text
(`textOr` maps `None` and `""` both to `""`). -/
theorem C1_run_termination {α β γ : Type} (cfg : AgentConfig α β γ)
    (provider : Provider α) (resp : Nat → ProviderResponse α)
    (message : String) (mu : Bool)
    (hN : 1 ≤ cfg.max_iterations)
    (hp : ∀ i, i < cfg.max_iterations → provider i = .ok (resp i))
    (hg : ∀ i, i < cfg.max_iterations → goodRound cfg (resp i)) :
    ∃ trace, run cfg provider message none mu = .ok trace ∧
      trace.mainCalls.length = cfg.max_iterations ∧
      trace.memoryCalls = [] ∧
      trace.output = .text (textOr (resp (cfg.max_iterations - 1)).text) := by
  obtain ⟨n, hn⟩ : ∃ n, cfg.max_iterations = n + 1 :=
    ⟨cfg.max_iterations - 1, by omega⟩
  unfold run
  simp only [Option.isSome_none, Bool.false_and, if_false]
  rw [hn]
  have hp' : ∀ i, i < n + 1 → provider (0 + i) = .ok (resp (0 + i)) := by
    intro i hi
    rw [Nat.zero_add]
    exact hp i (by omega)
  have hg' : ∀ i, i < n + 1 → goodRound cfg (resp (0 + i)) := by
    intro i hi
    rw [Nat.zero_add]
    exact hg i (by omega)
  obtain ⟨trace, h1, h2, h3, h4, h5⟩ :=
    runLoop_goodRounds cfg provider resp mu n 0 [⟨"user", .str message⟩]
      (cfg.output.map (fun om => om.name)) 0 0 [] [] none hp' hg'
  refine ⟨trace, h1, ?_, h3, ?_⟩
  · rw [h2]; simp
  · rw [h5]
    have hz : (0 : Nat) + n = n + 1 - 1 := by omega
    rw [hz]

/-- C3: with an output schema configured, a round whose tool-call list is
`pre ++ [c] ++ post` — the calls of `pre` not naming the schema, `c`
naming it with arguments that validate — makes `run` return the
validated structured result from that first provider call (one main call
even though more fuel remains), and the only tool executions are those
of `pre`: the calls after `c` in the round are never executed. -/
theorem C3_structured_short_circuit {α β γ : Type} (cfg : AgentConfig α β γ)
    (provider : Provider α) (message : String) {om : OutputModel α β}
    (pre post : List (ToolCall α)) (c : ToolCall α) {b : β} {r0 : ProviderResponse α}
    (hout : cfg.output = some om)
    (hfuel : 1 ≤ cfg.max_iterations)
    (hp0 : provider 0 = .ok r0)
    (htc : r0.tool_calls = pre ++ c :: post)
    (hpre : ∀ t ∈ pre, matchesOutput cfg t = false)
    (hc : c.name = om.name)
    (hv : om.validate c.input = .ok b) :
    ∃ trace, run cfg provider message none true = .ok trace ∧
      trace.output = .structured b ∧
      trace.mainCalls.length = 1 ∧
      trace.toolExecutions = execsOf cfg pre := by
  unfold run
  simp only [Option.isSome_none, Bool.false_and, if_false]
  have hne : r0.tool_calls ≠ [] := by rw [htc]; simp
  have hproc : processToolCalls cfg r0.tool_calls =
      .ok (.structuredDone b c.input (execsOf cfg pre)) := by
    rw [htc]
    exact processToolCalls_structured cfg pre c post hout hpre hc hv
  rw [runLoop_unfold_structured (cfg.max_iterations - 1) (by omega) hp0 hne hproc,
    maybeUpdateMemory_none_id]
  exact ⟨_, rfl, rfl, rfl, rfl⟩

/-- C5: a round with an ordered list of tool-call requests (none naming
the output schema) delivers to the next provider call a single
role-flipped message whose outcome blocks are `resultBlocks` — exactly
one `tool_result` per request, in the order of the requests. Tool
execution in the embedded loop is sequential, so completion order
coincides with request order, and the outcome list is the `List.map`
image of the request list. -/
theorem C5_order_preservation {α β γ : Type} (cfg : AgentConfig α β γ)
    (provider : Provider α) (message : String) {r0 r1 : ProviderResponse α}
    (hm : cfg.max_iterations = 2)
    (hp0 : provider 0 = .ok r0) (hp1 : provider 1 = .ok r1)
    (hne : r0.tool_calls ≠ [])
    (hno : ∀ t ∈ r0.tool_calls, matchesOutput cfg t = false)
    (htc1 : r1.tool_calls = []) :
    ∃ trace, run cfg provider message none true = .ok trace ∧
      trace.mainCalls.map (fun c => c.messages) =
        [[⟨"user", .str message⟩],
         [⟨"user", .str message⟩,
          ⟨"assistant", .blocks (build_assistant_content r0)⟩,
          ⟨"user", .blocks (resultBlocks cfg r0.tool_calls)⟩]] ∧
      resultBlocks cfg r0.tool_calls =
        r0.tool_calls.map (fun t => ContentBlock.tool_result t.id (execStr cfg t)) := by
  unfold run
  simp only [Option.isSome_none, Bool.false_and, Bool.false_eq_true, if_false]
  have hproc := processToolCalls_results cfg r0.tool_calls hno
  rw [runLoop_unfold_results 1 (by rw [hm]) hp0 hne hproc]
  have hp1' : provider (0 + 1) = .ok r1 := by rw [Nat.zero_add]; exact hp1
  rw [runLoop_unfold_empty 0 rfl hp1' htc1, maybeUpdateMemory_none_id]
  refine ⟨_, rfl, ?_, by simp [resultBlocks]⟩
  simp

/-- C6: in a round containing a request `u` naming an unregistered tool
and a request `x` whose registered tool raises, the outcomes are the
strings "Error: Unknown tool '<name>'" and "Error executing tool
'<name>': <error text>", both folded into the round's tool-result
message, and the run continues to the next round and terminates
normally rather than aborting. -/
theorem C6_tool_failure_isolation {α β γ : Type} (cfg : AgentConfig α β γ)
    (provider : Provider α) (message msg : String) (u x : ToolCall α)
    {td : ToolDefinition α} {r0 r1 : ProviderResponse α}
    (hm : cfg.max_iterations = 2)
    (hp0 : provider 0 = .ok r0) (hp1 : provider 1 = .ok r1)
    (htc0 : r0.tool_calls = [u, x]) (htc1 : r1.tool_calls = [])
    (hnou : matchesOutput cfg u = false) (hnox : matchesOutput cfg x = false)
    (hu : registryGet cfg.registry u.name = none)
    (hx : registryGet cfg.registry x.name = some td)
    (hex : td.execute x.input = .error msg) :
    ∃ trace, run cfg provider message none true = .ok trace ∧
      trace.mainCalls.map (fun c => c.messages) =
        [[⟨"user", .str message⟩],
         [⟨"user", .str message⟩,
          ⟨"assistant", .blocks (build_assistant_content r0)⟩,
          ⟨"user", .blocks
            [ContentBlock.tool_result u.id ("Error: Unknown tool '" ++ u.name ++ "'"),
             ContentBlock.tool_result x.id
               ("Error executing tool '" ++ x.name ++ "': " ++ msg)]⟩]] ∧
      trace.output = .text (textOr r1.text) := by
  have hsu : execStr cfg u = "Error: Unknown tool '" ++ u.name ++ "'" := by
    unfold execStr
    rw [hu]
  have hsx : execStr cfg x = "Error executing tool '" ++ x.name ++ "': " ++ msg := by
    unfold execStr
    rw [hx]
    simp [hex]
  have hne : r0.tool_calls ≠ [] := by rw [htc0]; simp
  have hno : ∀ t ∈ r0.tool_calls, matchesOutput cfg t = false := by
    rw [htc0]
    intro t ht
    simp at ht
    rcases ht with rfl | rfl
    · exact hnou
    · exact hnox
  have hproc := processToolCalls_results cfg r0.tool_calls hno
  unfold run
  simp only [Option.isSome_none, Bool.false_and, Bool.false_eq_true, if_false]
  rw [runLoop_unfold_results 1 (by rw [hm]) hp0 hne hproc]
  have hp1' : provider (0 + 1) = .ok r1 := by rw [Nat.zero_add]; exact hp1
  rw [runLoop_unfold_empty 0 rfl hp1' htc1, maybeUpdateMemory_none_id]
  refine ⟨_, rfl, ?_, rfl⟩
  simp [htc0, resultBlocks, hsu, hsx]

/-- C7: with an output schema configured (its class name non-empty, as a
Python class name always is), every completed run's first provider call
is made with tool choice forced to the schema's name, and every later
main-loop call — each of which exists only because the previous round
produced tool calls — is made with tool choice "auto"; the forced name
never recurs. -/
theorem C7_forced_then_auto {α β γ : Type} (cfg : AgentConfig α β γ)
    (provider : Provider α) (message : String) (mid : Option String) (mu : Bool)
    {om : OutputModel α β} {trace : RunTrace α β γ}
    (hout : cfg.output = some om) (hname : om.name ≠ "")
    (h : run cfg provider message mid mu = .ok trace) :
    ∃ c0 rest, trace.mainCalls = c0 :: rest ∧
      c0.tool_choice = some om.name ∧
      ∀ c ∈ rest, c.tool_choice = some "auto" := by
  unfold run at h
  cases hif : mid.isSome && cfg.memory.isNone with
  | true => rw [hif] at h; simp at h
  | false =>
    rw [hif] at h
    simp only [Bool.false_eq_true, if_false] at h
    rw [hout] at h
    simp only [Option.map_some'] at h
    cases hfu : cfg.max_iterations with
    | zero =>
      rw [hfu, runLoop] at h
      exact absurd h (by simp)
    | succ n =>
      rw [hfu] at h
      rcases hp : provider 0 with e | r
      · rw [runLoop_succ_err hp] at h; exact absurd h (by simp)
      · cases hcalls : r.tool_calls with
        | nil =>
          rw [runLoop_succ_empty hp hcalls] at h
          rcases hmm : maybeUpdateMemory cfg provider (0 + 1)
              [⟨"user", .str message⟩] mid mu (textOr r.text) with e | p
          · rw [hmm] at h; exact absurd h (by simp)
          · rw [hmm] at h
            obtain ⟨mcalls, writes⟩ := p
            simp only [Except.ok.injEq] at h
            subst h
            refine ⟨⟨[⟨"user", .str message⟩], toolNames cfg,
              effectiveChoice cfg (some om.name), r.usage⟩, [], by simp, ?_, by simp⟩
            exact effectiveChoice_of_output (some om.name) hout
        | cons t ts =>
          have hne : r.tool_calls ≠ [] := by rw [hcalls]; simp
          rcases hproc : processToolCalls cfg r.tool_calls with e | out
          · rw [runLoop_succ_proc_err hp hne hproc] at h
            exact absurd h (by simp)
          · cases out with
            | structuredDone b inp execs =>
              rw [runLoop_succ_structured hp hne hproc] at h
              rcases hmm : maybeUpdateMemory cfg provider (0 + 1)
                  ([⟨"user", .str message⟩] ++
                    [⟨"assistant", .blocks (build_assistant_content r)⟩]) mid mu
                  (cfg.toStr inp) with e | p
              · rw [hmm] at h; exact absurd h (by simp)
              · rw [hmm] at h
                obtain ⟨mcalls, writes⟩ := p
                simp only [Except.ok.injEq] at h
                subst h
                refine ⟨⟨[⟨"user", .str message⟩], toolNames cfg,
                  effectiveChoice cfg (some om.name), r.usage⟩, [], by simp, ?_,
                  by simp⟩
                exact effectiveChoice_of_output (some om.name) hout
            | results blocks execs =>
              rw [runLoop_succ_results hp hne hproc, nextChoice_ne hname] at h
              obtain ⟨suffix, h1, h2⟩ := runLoop_auto hout _ _ _ _ _ _ _ _ _ h
              refine ⟨⟨[⟨"user", .str message⟩], toolNames cfg,
                effectiveChoice cfg (some om.name), r.usage⟩, suffix,
                by simp [h1], ?_, h2⟩
              exact effectiveChoice_of_output (some om.name) hout

/-- C8 amended: an agent configured without an output schema returns
plain text on every terminating run; the structured constructor is
unreachable on that configuration. (With an output schema configured the
shape is NOT fixed at construction time: the no-tool-call and
iteration-exhaustion exits still return text — see the counterexample.) -/
theorem C8_text_without_schema {α β γ : Type} (cfg : AgentConfig α β γ)
    (provider : Provider α) (message : String) (mid : Option String) (mu : Bool)
    (trace : RunTrace α β γ)
    (hout : cfg.output = none)
    (h : run cfg provider message mid mu = .ok trace) :
    ∃ s, trace.output = .text s := by
  unfold run at h
  cases hif : mid.isSome && cfg.memory.isNone with
  | true => rw [hif] at h; simp at h
  | false =>
    rw [hif] at h
    simp only [Bool.false_eq_true, if_false] at h
    exact runLoop_text hout _ _ _ _ _ _ _ _ _ _ h

/-- C9 amended: with a memory scope supplied and updates enabled, after a
main loop that ends with a text round, the memory-update provider call
behaves as follows — if it returns a response with no tool call naming
the memory schema, no write occurs and the main result is still
returned (non-fatal); if it returns a matching, validating record, that
record is written under the scope id and the main result is returned;
but if the provider call itself raises, the exception propagates out of
`run` and the caller does not receive the main result (the error path
is NOT non-fatal, contrary to the original claim). -/
theorem C9_memory_nonfatal_paths {α β γ : Type} (cfg : AgentConfig α β γ)
    (provider : Provider α) (message : String) (mid : String)
    {mem : MemorySchema α γ} {r0 : ProviderResponse α}
    (hmem : cfg.memory = some mem)
    (hm : cfg.max_iterations = 1)
    (hp0 : provider 0 = .ok r0) (htc0 : r0.tool_calls = []) :
    (∀ r1 : ProviderResponse α, provider 1 = .ok r1 →
      r1.tool_calls.find? (fun t => t.name == mem.schemaName) = none →
      ∃ trace, run cfg provider message (some mid) true = .ok trace ∧
        trace.output = .text (textOr r0.text) ∧
        trace.memoryWrites = [] ∧
        trace.memoryCalls.length = 1) ∧
    (∀ (r1 : ProviderResponse α) (t : ToolCall α) (d : γ), provider 1 = .ok r1 →
      r1.tool_calls.find? (fun t => t.name == mem.schemaName) = some t →
      mem.validate t.input = .ok d →
      ∃ trace, run cfg provider message (some mid) true = .ok trace ∧
        trace.output = .text (textOr r0.text) ∧
        trace.memoryWrites = [(mid, d)]) ∧
    (∀ e : String, provider 1 = .error e →
      run cfg provider message (some mid) true = .error (.providerError e)) := by
  have hcond : ((some mid).isSome && cfg.memory.isNone) = false := by
    rw [hmem]; rfl
  have hstep : run cfg provider message (some mid) true =
      (match maybeUpdateMemory cfg provider (0 + 1)
          [⟨"user", .str message⟩] (some mid) true (textOr r0.text) with
       | .error e => .error e
       | .ok (mcalls, writes) =>
         .ok ⟨.text (textOr r0.text), 0 + r0.usage.input_tokens,
           0 + r0.usage.output_tokens,
           [] ++ [⟨[⟨"user", .str message⟩], toolNames cfg,
             effectiveChoice cfg (cfg.output.map (fun om => om.name)), r0.usage⟩],
           mcalls, writes, []⟩) := by
    unfold run
    rw [hcond]
    simp only [Bool.false_eq_true, if_false]
    exact runLoop_unfold_empty 0 (by rw [hm]) hp0 htc0
  refine ⟨?_, ?_, ?_⟩
  · intro r1 hp1 hfind
    have hp1' : provider (0 + 1) = .ok r1 := by rw [Nat.zero_add]; exact hp1
    rw [hstep, maybeUpdateMemory_some (0 + 1) _ mid (textOr r0.text) hmem, hp1']
    simp only [hfind]
    exact ⟨_, rfl, rfl, rfl, rfl⟩
  · intro r1 t d hp1 hfind hv
    have hp1' : provider (0 + 1) = .ok r1 := by rw [Nat.zero_add]; exact hp1
    rw [hstep, maybeUpdateMemory_some (0 + 1) _ mid (textOr r0.text) hmem, hp1']
    simp only [hfind, hv]
    exact ⟨_, rfl, rfl, rfl⟩
  · intro e hp1
    have hp1' : provider (0 + 1) = .error e := by rw [Nat.zero_add]; exact hp1
    rw [hstep, maybeUpdateMemory_some (0 + 1) _ mid (textOr r0.text) hmem, hp1']

/-- C10: when a registered tool shares its name with the configured
output schema, a round whose single tool call bears that name never
dispatches the registered tool: the structured-output branch is checked
before the registry lookup, so with validating arguments the run returns
the structured result and the execution log is empty, and with
non-validating arguments the validation error propagates — in neither
case does the registered tool run. -/
theorem C10_output_shadows_tool {α β γ : Type} (cfg : AgentConfig α β γ)
    (provider : Provider α) (message : String)
    {om : OutputModel α β} {td : ToolDefinition α} {c : ToolCall α}
    {r0 : ProviderResponse α}
    (hout : cfg.output = some om)
    (hreg : registryGet cfg.registry om.name = some td)
    (hm : 1 ≤ cfg.max_iterations)
    (hp0 : provider 0 = .ok r0) (htc : r0.tool_calls = [c]) (hc : c.name = om.name) :
    (∀ b : β, om.validate c.input = .ok b →
      ∃ trace, run cfg provider message none true = .ok trace ∧
        trace.output = .structured b ∧
        trace.toolExecutions = []) ∧
    (∀ m : String, om.validate c.input = .error m →
      run cfg provider message none true = .error (.validationError m)) := by
  have hne : r0.tool_calls ≠ [] := by rw [htc]; simp
  constructor
  · intro b hv
    have hproc : processToolCalls cfg r0.tool_calls =
        .ok (.structuredDone b c.input (execsOf cfg [])) := by
      rw [htc]
      exact processToolCalls_structured cfg [] c [] hout (by simp) hc hv
    unfold run
    simp only [Option.isSome_none, Bool.false_and, Bool.false_eq_true, if_false]
    rw [runLoop_unfold_structured (cfg.max_iterations - 1) (by omega) hp0 hne hproc,
      maybeUpdateMemory_none_id]
    refine ⟨_, rfl, rfl, ?_⟩
    simp [execsOf]
  · intro m hv
    have hproc : processToolCalls cfg r0.tool_calls = .error (.validationError m) := by
      rw [htc]
      exact processToolCalls_invalid cfg [] c [] hout (by simp) hc hv
    unfold run
    simp only [Option.isSome_none, Bool.false_and, Bool.false_eq_true, if_false]
    exact runLoop_unfold_invalid (cfg.max_iterations - 1) (by omega) hp0 hne hproc

/-- C4 amended: the usage totals a run accumulates are the sums of the
usages of the main-loop provider calls alone — the memory-update
sub-call's response usage is read nowhere in `_update_memory` and so
contributes nothing. (The accumulated total is reported to the tracing
span; the value `run` returns to the caller is the bare text or
structured record, carrying neither usage nor a call count.) -/
theorem C4_usage_accumulation {α β γ : Type} (cfg : AgentConfig α β γ)
    (provider : Provider α) (message : String) (mid : Option String) (mu : Bool)
    (trace : RunTrace α β γ)
    (h : run cfg provider message mid mu = .ok trace) :
    trace.total_input_tokens =
      (trace.mainCalls.map (fun c => c.usage.input_tokens)).sum ∧
    trace.total_output_tokens =
      (trace.mainCalls.map (fun c => c.usage.output_tokens)).sum := by
  unfold run at h
  cases hif : mid.isSome && cfg.memory.isNone with
  | true =>
    rw [hif] at h
    simp at h
  | false =>
    rw [hif] at h
    simp only [Bool.false_eq_true, if_false] at h
    exact runLoop_usage cfg provider mid mu _ _ _ _ _ _ _ _ _ _ h rfl rfl


/-! ## Concrete instances: witnesses and counterexamples -/


def cfgC1 : AgentConfig Unit Nat Nat :=
  ⟨[("lookup", ⟨fun _ => .ok "42"⟩)], none, none, 2, fun _ => "{}"⟩

def respC1 : Nat → ProviderResponse Unit :=
  fun _ => ⟨some "loop", [⟨"id1", "lookup", ()⟩], ⟨1, 2⟩⟩

def provC1 : Provider Unit := fun i => .ok (respC1 i)

theorem C1_run_termination_witness :
    ∃ trace, run cfgC1 provC1 "go" none true = .ok trace ∧
      trace.mainCalls.length = 2 ∧
      trace.memoryCalls = [] ∧
      trace.output = .text "loop" := by
  have hgood : goodRound cfgC1 ⟨some "loop", [⟨"id1", "lookup", ()⟩], ⟨1, 2⟩⟩ := by
    decide
  obtain ⟨trace, h1, h2, h3, h4⟩ :=
    C1_run_termination cfgC1 provC1 respC1 "go" true (by decide)
      (fun i hi => rfl) (fun i hi => hgood)
  exact ⟨trace, h1, h2, h3, h4⟩

def cfgC3 : AgentConfig Unit Nat Nat :=
  ⟨[("t", ⟨fun _ => .ok "r"⟩)], some ⟨"Out", fun _ => .ok 9⟩, none, 1, fun _ => "{}"⟩

def provC3 : Provider Unit := fun i =>
  if i == 0 then
    .ok ⟨none, [⟨"a", "t", ()⟩, ⟨"b", "Out", ()⟩, ⟨"c", "t", ()⟩], ⟨1, 1⟩⟩
  else .error "stop"

theorem C3_structured_short_circuit_witness :
    ∃ trace, run cfgC3 provC3 "q" none true = .ok trace ∧
      trace.output = .structured 9 ∧
      trace.mainCalls.length = 1 ∧
      trace.toolExecutions = [("t", ())] := by
  obtain ⟨trace, h1, h2, h3, h4⟩ :=
    C3_structured_short_circuit cfgC3 provC3 "q" [⟨"a", "t", ()⟩] [⟨"c", "t", ()⟩]
      ⟨"b", "Out", ()⟩ rfl (by decide) rfl rfl (by decide) rfl rfl
  exact ⟨trace, h1, h2, h3, h4⟩

def cfgC4w : AgentConfig Unit Nat Nat :=
  ⟨[("t", ⟨fun _ => .ok "r"⟩)], none, none, 3, fun _ => "{}"⟩

def provC4w : Provider Unit := fun i =>
  if i == 0 then .ok ⟨none, [⟨"i", "t", ()⟩], ⟨10, 5⟩⟩
  else if i == 1 then .ok ⟨some "done", [], ⟨20, 15⟩⟩
  else .error "stop"

def traceC4w : RunTrace Unit Nat Nat :=
  (run cfgC4w provC4w "m" none true).toOption.get (by decide)

theorem C4_usage_accumulation_witness :
    run cfgC4w provC4w "m" none true = .ok traceC4w ∧
    traceC4w.total_input_tokens = 30 ∧
    traceC4w.total_output_tokens = 20 ∧
    traceC4w.mainCalls.length = 2 ∧
    traceC4w.total_input_tokens =
      (traceC4w.mainCalls.map (fun c => c.usage.input_tokens)).sum ∧
    traceC4w.total_output_tokens =
      (traceC4w.mainCalls.map (fun c => c.usage.output_tokens)).sum := by
  have hrun : run cfgC4w provC4w "m" none true = .ok traceC4w := rfl
  have h := C4_usage_accumulation cfgC4w provC4w "m" none true traceC4w hrun
  exact ⟨hrun, rfl, rfl, rfl, h.1, h.2⟩

def cfgC4x : AgentConfig Unit Nat Nat :=
  ⟨[], none, some ⟨"Mem", fun _ => .ok 0⟩, 3, fun _ => "{}"⟩

def provC4x : Provider Unit := fun i =>
  if i == 0 then .ok ⟨some "hi there", [], ⟨10, 5⟩⟩
  else if i == 1 then .ok ⟨none, [⟨"m", "Mem", ()⟩], ⟨20, 15⟩⟩
  else .error "stop"

def traceC4x : RunTrace Unit Nat Nat :=
  (run cfgC4x provC4x "hello" (some "u1") true).toOption.get (by decide)

theorem C4_counterexample :
    run cfgC4x provC4x "hello" (some "u1") true = .ok traceC4x ∧
    traceC4x.mainCalls.length = 1 ∧
    traceC4x.memoryCalls.length = 1 ∧
    traceC4x.mainCalls.map (fun c => c.usage) = [⟨10, 5⟩] ∧
    traceC4x.memoryCalls.map (fun c => c.usage) = [⟨20, 15⟩] ∧
    traceC4x.total_input_tokens = 10 ∧
    traceC4x.total_output_tokens = 5 ∧
    ¬(traceC4x.total_input_tokens = 30 ∧ traceC4x.total_output_tokens = 20) := by
  refine ⟨rfl, rfl, rfl, rfl, rfl, rfl, rfl, ?_⟩
  decide

def cfgC5 : AgentConfig Unit Nat Nat :=
  ⟨[("t", ⟨fun _ => .ok "r"⟩)], none, none, 2, fun _ => "{}"⟩

def provC5 : Provider Unit := fun i =>
  if i == 0 then
    .ok ⟨none, [⟨"a", "t", ()⟩, ⟨"b", "t", ()⟩, ⟨"c", "t", ()⟩], ⟨1, 1⟩⟩
  else .ok ⟨some "done", [], ⟨1, 1⟩⟩

theorem C5_order_preservation_witness :
    ∃ trace, run cfgC5 provC5 "ask" none true = .ok trace ∧
      trace.mainCalls.map (fun c => c.messages) =
        [[⟨"user", .str "ask"⟩],
         [⟨"user", .str "ask"⟩,
          ⟨"assistant", .blocks
            [ContentBlock.tool_use "a" "t" (), ContentBlock.tool_use "b" "t" (),
             ContentBlock.tool_use "c" "t" ()]⟩,
          ⟨"user", .blocks
            [ContentBlock.tool_result "a" "r", ContentBlock.tool_result "b" "r",
             ContentBlock.tool_result "c" "r"]⟩]] := by
  obtain ⟨trace, h1, h2, h3⟩ :=
    C5_order_preservation cfgC5 provC5 "ask" rfl rfl rfl (by decide) (by decide) rfl
  exact ⟨trace, h1, h2⟩

def cfgC6 : AgentConfig Unit Nat Nat :=
  ⟨[("boom", ⟨fun _ => .error "division by zero"⟩)], none, none, 2, fun _ => "{}"⟩

def provC6 : Provider Unit := fun i =>
  if i == 0 then .ok ⟨none, [⟨"u1", "nope", ()⟩, ⟨"x1", "boom", ()⟩], ⟨1, 1⟩⟩
  else .ok ⟨some "recovered", [], ⟨1, 1⟩⟩

theorem C6_tool_failure_isolation_witness :
    ∃ trace, run cfgC6 provC6 "do it" none true = .ok trace ∧
      trace.mainCalls.map (fun c => c.messages) =
        [[⟨"user", .str "do it"⟩],
         [⟨"user", .str "do it"⟩,
          ⟨"assistant", .blocks
            [ContentBlock.tool_use "u1" "nope" (), ContentBlock.tool_use "x1" "boom" ()]⟩,
          ⟨"user", .blocks
            [ContentBlock.tool_result "u1" "Error: Unknown tool 'nope'",
             ContentBlock.tool_result "x1"
               "Error executing tool 'boom': division by zero"]⟩]] ∧
      trace.output = .text "recovered" := by
  obtain ⟨trace, h1, h2, h3⟩ :=
    C6_tool_failure_isolation cfgC6 provC6 "do it" "division by zero"
      ⟨"u1", "nope", ()⟩ ⟨"x1", "boom", ()⟩ rfl rfl rfl rfl rfl rfl rfl rfl rfl rfl
  exact ⟨trace, h1, h2, h3⟩

def cfgC7 : AgentConfig Unit Nat Nat :=
  ⟨[("t", ⟨fun _ => .ok "r"⟩)], some ⟨"Out", fun _ => .ok 1⟩, none, 2, fun _ => "{}"⟩

def provC7 : Provider Unit := fun i =>
  if i == 0 then .ok ⟨none, [⟨"i", "t", ()⟩], ⟨1, 1⟩⟩
  else .ok ⟨some "done", [], ⟨1, 1⟩⟩

def traceC7 : RunTrace Unit Nat Nat :=
  (run cfgC7 provC7 "q" none true).toOption.get (by decide)

theorem C7_forced_then_auto_witness :
    run cfgC7 provC7 "q" none true = .ok traceC7 ∧
    ∃ c0 rest, traceC7.mainCalls = c0 :: rest ∧
      c0.tool_choice = some "Out" ∧
      ∀ c ∈ rest, c.tool_choice = some "auto" := by
  have hrun : run cfgC7 provC7 "q" none true = .ok traceC7 := rfl
  exact ⟨hrun, C7_forced_then_auto cfgC7 provC7 "q" none true rfl (by decide) hrun⟩

/-- Whether a run output is the structured constructor. -/
def RunOutput.isStructured {β : Type} : RunOutput β → Bool
  | .text _ => false
  | .structured _ => true

def cfgC8w : AgentConfig Unit Nat Nat :=
  ⟨[("t", ⟨fun _ => .ok "r"⟩)], none, none, 1, fun _ => "{}"⟩

def provC8w : Provider Unit := fun _ => .ok ⟨some "plain", [], ⟨1, 1⟩⟩

def traceC8w : RunTrace Unit Nat Nat :=
  (run cfgC8w provC8w "q" none true).toOption.get (by decide)

theorem C8_text_without_schema_witness :
    run cfgC8w provC8w "q" none true = .ok traceC8w ∧
    ∃ s, traceC8w.output = .text s := by
  have hrun : run cfgC8w provC8w "q" none true = .ok traceC8w := rfl
  exact ⟨hrun, C8_text_without_schema cfgC8w provC8w "q" none true traceC8w rfl hrun⟩

def cfgC8x : AgentConfig Unit Nat Nat :=
  ⟨[], some ⟨"Out", fun _ => .ok 7⟩, none, 1, fun _ => "{}"⟩

def provC8x : Provider Unit := fun _ => .ok ⟨some "plain text", [], ⟨1, 1⟩⟩

def traceC8x : RunTrace Unit Nat Nat :=
  (run cfgC8x provC8x "q" none true).toOption.get (by decide)

theorem C8_counterexample :
    run cfgC8x provC8x "q" none true = .ok traceC8x ∧
    traceC8x.output = RunOutput.text "plain text" ∧
    traceC8x.output.isStructured = false :=
  ⟨rfl, rfl, rfl⟩

def cfgC9 : AgentConfig Unit Nat Nat :=
  ⟨[], none, some ⟨"Mem", fun _ => .ok 7⟩, 1, fun _ => "{}"⟩

def provC9w : Provider Unit := fun i =>
  if i == 0 then .ok ⟨some "main answer", [], ⟨1, 1⟩⟩
  else .ok ⟨some "no tool call", [], ⟨2, 2⟩⟩

theorem C9_memory_nonfatal_paths_witness :
    ∃ trace, run cfgC9 provC9w "q" (some "u1") true = .ok trace ∧
      trace.output = .text "main answer" ∧
      trace.memoryWrites = [] ∧
      trace.memoryCalls.length = 1 := by
  obtain ⟨trace, h1, h2, h3, h4⟩ :=
    (C9_memory_nonfatal_paths cfgC9 provC9w "q" "u1" rfl rfl rfl rfl).1
      ⟨some "no tool call", [], ⟨2, 2⟩⟩ rfl rfl
  exact ⟨trace, h1, h2, h3, h4⟩

def provC9x : Provider Unit := fun i =>
  if i == 0 then .ok ⟨some "main answer", [], ⟨1, 1⟩⟩
  else .error "connection boom"

theorem C9_counterexample :
    run cfgC9 provC9x "q" (some "u1") true =
      .error (.providerError "connection boom") := rfl

def cfgC10 : AgentConfig Unit Nat Nat :=
  ⟨[("Out", ⟨fun _ => .ok "tool ran"⟩)], some ⟨"Out", fun _ => .ok 5⟩, none, 1,
    fun _ => "{}"⟩

def provC10 : Provider Unit := fun _ => .ok ⟨none, [⟨"i", "Out", ()⟩], ⟨1, 1⟩⟩

theorem C10_output_shadows_tool_witness :
    ∃ trace, run cfgC10 provC10 "q" none true = .ok trace ∧
      trace.output = .structured 5 ∧
      trace.toolExecutions = [] := by
  obtain ⟨trace, h1, h2, h3⟩ :=
    (C10_output_shadows_tool cfgC10 provC10 "q" rfl rfl (by decide) rfl rfl rfl).1
      5 rfl
  exact ⟨trace, h1, h2, h3⟩

end BasicAgent
